import Mathlib

/-!
Shallow embedding of the playback-quality / progress-persistence / ad-region
core of the artPlayerJs repository (revisions src/unnamed/part_000,
part_001, part_002), together with theorems settling the frozen claims.

JavaScript modelling conventions used throughout:
* a JS string-or-undefined field is `Option String`; JS truthiness of a
  string is `≠ ""` for a present string and false for an absent one;
* JS numbers that only ever meet order comparisons are `ℚ`;
* `localStorage` content for the continue-watching key is the inductive
  `Storage` (absent / unparsable-or-non-array / a parsed array);
* `str.includes(pat)` is `jsIncludes str pat`, a substring test on the
  character lists.
-/

namespace ArtPlayerJs

/-- Substring helper: `pat` occurs at the head of `s`. -/
def chStartsWith : List Char → List Char → Bool
  | [], _ => true
  | _ :: _, [] => false
  | a :: as, b :: bs => a == b && chStartsWith as bs

/-- Substring helper: `pat` occurs somewhere in `s`. -/
def chContains : List Char → List Char → Bool
  | [], pat => pat.isEmpty
  | b :: tail, pat => chStartsWith pat (b :: tail) || chContains tail pat

/-- Embedding of JavaScript `s.includes(pat)`. -/
def jsIncludes (s pat : String) : Bool :=
  chContains s.toList pat.toList

/-- Embedding of JavaScript `s.toLowerCase()` (the URLs involved are
ASCII): lower-case character by character. -/
def jsToLower (s : String) : String :=
  String.mk (s.data.map Char.toLower)

/-- The three quality tiers of the data model (`hd` = High, `mid` = Medium,
`low` = Low), the keys `hdVideo` / `midVideo` / `lowVideo` of the `video`
object. -/
inductive Quality
  | hd
  | mid
  | low
deriving DecidableEq, Repr

/-- The `video` object of a movie/episode record: one candidate URL per
quality tier, each possibly absent. -/
structure VideoData where
  hdVideo : Option String
  midVideo : Option String
  lowVideo : Option String
deriving DecidableEq, Repr

/-- `videoData[quality + "Video"]` field access. -/
def VideoData.get : VideoData → Quality → Option String
  | v, .hd => v.hdVideo
  | v, .mid => v.midVideo
  | v, .low => v.lowVideo

/-- The test `url && !url.includes('not found')` applied to a present URL
string: truthy (non-empty) and free of the sentinel substring. -/
def validStr (u : String) : Bool :=
  !(u == "") && !(jsIncludes u "not found")

/-- The test `url && !url.includes('not found')` on a possibly-absent URL. -/
def isValidUrl : Option String → Bool
  | none => false
  | some u => validStr u

/-- The fixed priority order `const qualityOrder = ['hd', 'mid', 'low']`. -/
def qualityOrder : List Quality := [.hd, .mid, .low]

/-- The fallback loop of `determinePlaybackQualityAndUrl`: scan the given
tiers in order and return the first `(url, quality)` whose URL passes
`url && !url.includes('not found')`. -/
def scanQualities (videoData : VideoData) : List Quality → Option (String × Quality)
  | [] => none
  | q :: rest =>
    match videoData.get q with
    | some u => if validStr u then some (u, q) else scanQualities videoData rest
    | none => scanQualities videoData rest

/-- Embedding of the type-inference tail of `determinePlaybackQualityAndUrl`
in revision part_002 (lines 365-386): lower-case the selected URL, `.m3u8`
or `.rebacdn1` gives `"m3u8"`, `.mpd` or `.rebacdn2` gives `"mpd"`,
anything else warns and defaults to `"m3u8"`. -/
def inferVideoType (url : String) : String :=
  if jsIncludes (jsToLower url) ".m3u8" || jsIncludes (jsToLower url) ".rebacdn1" then "m3u8"
  else if jsIncludes (jsToLower url) ".mpd" || jsIncludes (jsToLower url) ".rebacdn2" then "mpd"
  else "m3u8"

/-- Embedding of the same type-inference tail in revision part_000
(lines 336-357): identical except that the unknown-URL branch executes
`videoType = ''` (while logging a warning that claims to default to
`'m3u8'`). -/
def inferVideoType_v000 (url : String) : String :=
  if jsIncludes (jsToLower url) ".m3u8" || jsIncludes (jsToLower url) ".rebacdn1" then "m3u8"
  else if jsIncludes (jsToLower url) ".mpd" || jsIncludes (jsToLower url) ".rebacdn2" then "mpd"
  else ""

/-- Progress sub-object `continueWatching` of a record: `inMinutes` and
`inPercentage`; `none` models an absent or non-numeric field. -/
structure ContinueWatching where
  inMinutes : Option ℚ
  inPercentage : Option ℚ
deriving DecidableEq, Repr

/-- The `time` sub-object of a record; `endTime` models
`parseInt(item.time.endTime, 10)` with `none` for an absent, empty or
unparsable string. -/
structure TimeInfo where
  endTime : Option Int
deriving DecidableEq, Repr

/-- The slice of a movie/episode record (the JSON objects flowing between
the backend response, `saveEpisodeProgress` and the player) that the
persistence, merge and selection code reads. `epType` embeds the JS field
`type` (values `"M"` for movies, `"S"` for series episodes). -/
structure Episode where
  movieId : String
  episodeId : String
  title : String
  epType : String
  partName : Option String
  locked : Bool
  video : Option VideoData
  continueWatching : Option ContinueWatching
  time : Option TimeInfo
deriving DecidableEq, Repr

/-- The mutable globals touched by `determinePlaybackQualityAndUrl`
(`tempData`, `videoType`) together with the persisted quality preference
(localStorage key `userPreferredQuality`), which the function reads but
never writes. `getUserQualityPreference` validates the stored string to
one of `hd` / `mid` / `low`, hence the `Option Quality` type. -/
structure PlayerState where
  videoType : String
  tempData : Option Episode
  userPreferredQuality : Option Quality
deriving DecidableEq, Repr

/-- The selection core (`selectedUrl` / `selectedQuality` computation) of
`determinePlaybackQualityAndUrl` in revision part_002 (lines 307-364; the
preferred-quality branch is identical in part_001 lines 104-156): honour a
valid preferred URL first; otherwise scan `['hd','mid','low']` for the
first valid fallback; with no stored preference try `midVideo` first and
then run the scan with its `if (quality === 'mid') continue` guard. -/
def selectQuality (videoData : VideoData) : Option Quality → Option (String × Quality)
  | some p =>
    match videoData.get p with
    | some u => if validStr u then some (u, p) else scanQualities videoData qualityOrder
    | none => scanQualities videoData qualityOrder
  | none =>
    match videoData.midVideo with
    | some u =>
      if validStr u then some (u, .mid)
      else scanQualities videoData (qualityOrder.filter (fun q => !(q == .mid)))
    | none => scanQualities videoData (qualityOrder.filter (fun q => !(q == .mid)))

/-- The selection core of `determinePlaybackQualityAndUrl` in revision
part_000 (lines 277-335): the preferred-quality branch is the same, but
with no stored preference it tries `lowVideo` first, and its fallback loop
still carries the `if (quality === 'mid') continue` guard from the
mid-default revision — so the no-preference fallback scans only `hd` and
`low`. -/
def selectQuality_v000 (videoData : VideoData) : Option Quality → Option (String × Quality)
  | some p =>
    match videoData.get p with
    | some u => if validStr u then some (u, p) else scanQualities videoData qualityOrder
    | none => scanQualities videoData qualityOrder
  | none =>
    match videoData.lowVideo with
    | some u =>
      if validStr u then some (u, .low)
      else scanQualities videoData (qualityOrder.filter (fun q => !(q == .mid)))
    | none => scanQualities videoData (qualityOrder.filter (fun q => !(q == .mid)))

/-- Embedding of `determinePlaybackQualityAndUrl` as in revision part_002
(lines 307-392): store `movieData` into the global `tempData`, run the
selection core, then set the global `videoType` from the selected URL
(default `"m3u8"` when nothing was selected). Returns the new global
state paired with the `{url, quality}` result (or `none`). -/
def determinePlaybackQualityAndUrl (movieData : Episode) (preferredQuality : Option Quality)
    (st : PlayerState) : PlayerState × Option (String × Quality) :=
  let st := { st with tempData := some movieData }
  match movieData.video with
  | none => ({ st with videoType := "m3u8" }, none)
  | some videoData =>
    match selectQuality videoData preferredQuality with
    | some (u, q) => ({ st with videoType := inferVideoType u }, some (u, q))
    | none => ({ st with videoType := "m3u8" }, none)

/-- Embedding of `determinePlaybackQualityAndUrl` as in revision part_000
(lines 277-360): same shape, with the part_000 selection core and the
part_000 type inference (which leaves `videoType` empty on an unknown
URL). -/
def determinePlaybackQualityAndUrl_v000 (movieData : Episode) (preferredQuality : Option Quality)
    (st : PlayerState) : PlayerState × Option (String × Quality) :=
  let st := { st with tempData := some movieData }
  match movieData.video with
  | none => ({ st with videoType := "m3u8" }, none)
  | some videoData =>
    match selectQuality_v000 videoData preferredQuality with
    | some (u, q) => ({ st with videoType := inferVideoType_v000 u }, some (u, q))
    | none => ({ st with videoType := "m3u8" }, none)

/-- Embedding of `getCurrentAdRegion` (part_002 lines 206-215, identical in
part_000 lines 212-221): map the percentage of duration to the ad-region
name string, `null` outside the three fixed windows. -/
def getCurrentAdRegion (percentage : ℚ) : Option String :=
  if 19 ≤ percentage ∧ percentage < 49 then some "preLoll"
  else if 55 ≤ percentage ∧ percentage ≤ 75 then some "midLoll"
  else if 81 ≤ percentage ∧ percentage ≤ 100 then some "postLoll"
  else none

/-- The result component of `determinePlaybackQualityAndUrl` is exactly the
selection core's answer; the type-inference tail only touches `videoType`. -/
lemma determine_snd (movieData : Episode) (preferredQuality : Option Quality)
    (st : PlayerState) :
    (determinePlaybackQualityAndUrl movieData preferredQuality st).2 =
      match movieData.video with
      | none => none
      | some videoData => selectQuality videoData preferredQuality := by
  unfold determinePlaybackQualityAndUrl
  cases movieData.video with
  | none => rfl
  | some videoData =>
    cases h : selectQuality videoData preferredQuality with
    | none => simp [h]
    | some r => rcases r with ⟨u, q⟩; simp [h]

/-- `determinePlaybackQualityAndUrl` never writes the persisted quality
preference: the `userPreferredQuality` slot of the state is untouched. -/
lemma determine_pref (movieData : Episode) (preferredQuality : Option Quality)
    (st : PlayerState) :
    (determinePlaybackQualityAndUrl movieData preferredQuality st).1.userPreferredQuality =
      st.userPreferredQuality := by
  unfold determinePlaybackQualityAndUrl
  cases movieData.video with
  | none => rfl
  | some videoData =>
    cases h : selectQuality videoData preferredQuality with
    | none => simp [h]
    | some r => rcases r with ⟨u, q⟩; simp [h]

/-- When at least one tier holds a valid URL, the priority scan over
`['hd','mid','low']` finds one. -/
lemma scanQualities_isSome_of (videoData : VideoData)
    (h : (isValidUrl videoData.hdVideo || isValidUrl videoData.midVideo ||
      isValidUrl videoData.lowVideo) = true) :
    (scanQualities videoData qualityOrder).isSome = true := by
  rcases videoData with ⟨oh, om, ol⟩
  cases oh <;> cases om <;> cases ol <;>
    simp_all [scanQualities, qualityOrder, VideoData.get, isValidUrl] <;>
    split_ifs <;> simp_all

/-- The spec scenario record: `hdVideo` is the `"not found"` sentinel while
`midVideo` and `lowVideo` are valid HLS URLs. -/
def sampleVideo : VideoData :=
  ⟨some "not found", some "https://cdn.example.com/ep1/mid.m3u8",
    some "https://cdn.example.com/ep1/low.m3u8"⟩

/-- A concrete episode record wrapping `sampleVideo`. -/
def sampleEpisode : Episode :=
  { movieId := "m1", episodeId := "e1", title := "Sample", epType := "S",
    partName := none, locked := false, video := some sampleVideo,
    continueWatching := none, time := none }

/-- Player globals with the stored preference `"hd"`. -/
def stateHdPref : PlayerState := ⟨"m3u8", none, some .hd⟩

/-- Player globals with no stored preference. -/
def stateNoPref : PlayerState := ⟨"m3u8", none, none⟩

/-- C1: for every record with at least one valid rendition and every
non-null preferred tier `p`, `determinePlaybackQualityAndUrl` returns
`p`'s URL paired with tier `p` when that URL is valid, and otherwise the
first valid URL of the fixed priority scan `['hd', 'mid', 'low']` (which
succeeds); in either case the stored quality preference is unchanged. -/
theorem claim_C1_preferred_selection (st : PlayerState) (movieData : Episode)
    (videoData : VideoData) (p : Quality)
    (hvid : movieData.video = some videoData)
    (hvalid : (isValidUrl videoData.hdVideo || isValidUrl videoData.midVideo ||
      isValidUrl videoData.lowVideo) = true) :
    (∀ u, videoData.get p = some u → validStr u = true →
      (determinePlaybackQualityAndUrl movieData (some p) st).2 = some (u, p))
    ∧ (isValidUrl (videoData.get p) = false →
        (determinePlaybackQualityAndUrl movieData (some p) st).2 =
          scanQualities videoData qualityOrder
        ∧ (scanQualities videoData qualityOrder).isSome = true)
    ∧ (determinePlaybackQualityAndUrl movieData (some p) st).1.userPreferredQuality =
        st.userPreferredQuality := by
  have hsnd := determine_snd movieData (some p) st
  rw [hvid] at hsnd
  refine ⟨?_, ?_, determine_pref ..⟩
  · intro u hu hv
    rw [hsnd]
    simp [selectQuality, hu, hv]
  · intro hinv
    refine ⟨?_, scanQualities_isSome_of _ hvalid⟩
    rw [hsnd]
    cases hg : videoData.get p with
    | none => simp [selectQuality, hg]
    | some u =>
      rw [hg] at hinv
      simp only [isValidUrl] at hinv
      simp [selectQuality, hg, hinv]

/-- Witness for C1 at the spec scenario: preference `hd`, `hdVideo` is the
sentinel, so the scan is used (it selects `mid`) and the stored `hd`
preference survives. -/
theorem claim_C1_witness :
    (determinePlaybackQualityAndUrl sampleEpisode (some Quality.hd) stateHdPref).2 =
      scanQualities sampleVideo qualityOrder
    ∧ (scanQualities sampleVideo qualityOrder).isSome = true
    ∧ (determinePlaybackQualityAndUrl sampleEpisode (some Quality.hd) stateHdPref).1.userPreferredQuality =
        some Quality.hd
    ∧ scanQualities sampleVideo qualityOrder =
        some ("https://cdn.example.com/ep1/mid.m3u8", Quality.mid) := by
  have h := claim_C1_preferred_selection stateHdPref sampleEpisode sampleVideo Quality.hd rfl
    (by decide)
  exact ⟨(h.2.1 (by decide)).1, (h.2.1 (by decide)).2, h.2.2, by decide⟩

/-- A record where only `midVideo` is valid: both other tiers carry the
`"not found"` sentinel. -/
def midOnlyEpisode : Episode :=
  { sampleEpisode with
    video := some ⟨some "not found", some "https://cdn.example.com/ep1/mid.m3u8",
      some "not found"⟩ }

/-- C2: in revision part_000, with no stored preference, a valid `lowVideo`
is selected as tier `low` with the stored preference left unset; but the
fallback when `lowVideo` is invalid still skips `mid` (stale
`if (quality === 'mid') continue`), so a record whose only valid rendition
is `midVideo` yields no selection at all, contradicting the claimed scan
`[hd, mid, low]` minus the already-tried `low`. -/
theorem claim_C2_low_default_and_skip_bug :
    (determinePlaybackQualityAndUrl_v000 sampleEpisode none stateNoPref).2 =
      some ("https://cdn.example.com/ep1/low.m3u8", Quality.low)
    ∧ (determinePlaybackQualityAndUrl_v000 sampleEpisode none stateNoPref).1.userPreferredQuality =
        none
    ∧ validStr "https://cdn.example.com/ep1/mid.m3u8" = true
    ∧ (determinePlaybackQualityAndUrl_v000 midOnlyEpisode none stateNoPref).2 = none := by
  decide

/-- A record whose only rendition URL has no recognizable container marker. -/
def binUrlEpisode : Episode :=
  { sampleEpisode with
    video := some ⟨some "https://cdn.example.com/video.bin", none, none⟩ }

/-- C8: revision part_002 infers `m3u8` for `.m3u8`/`.rebacdn1` URLs, `mpd`
for `.mpd`/`.rebacdn2` URLs, and defaults to `m3u8` otherwise, so its
inferred type is never empty; but revision part_000 sets `videoType` to
the empty string on an unknown URL (while its own warning message claims
to default to `m3u8`), exhibited on a successfully selected `.bin` URL. -/
theorem claim_C8_type_default_divergence :
    (∀ url, inferVideoType url = "m3u8" ∨ inferVideoType url = "mpd")
    ∧ inferVideoType "https://cdn.example.com/video.bin" = "m3u8"
    ∧ inferVideoType_v000 "https://cdn.example.com/video.bin" = ""
    ∧ inferVideoType "https://cdn.example.com/ep1/low.M3U8" = "m3u8"
    ∧ inferVideoType "https://a.rebacdn1.net/x" = "m3u8"
    ∧ inferVideoType "https://cdn.example.com/stream.mpd" = "mpd"
    ∧ inferVideoType "https://a.rebacdn2.net/x" = "mpd"
    ∧ (determinePlaybackQualityAndUrl_v000 binUrlEpisode (some Quality.hd) stateNoPref).2 =
        some ("https://cdn.example.com/video.bin", Quality.hd)
    ∧ (determinePlaybackQualityAndUrl_v000 binUrlEpisode (some Quality.hd) stateNoPref).1.videoType =
        "" := by
  refine ⟨?_, by decide, by decide, by decide, by decide, by decide, by decide, by decide,
    by decide⟩
  intro url
  unfold inferVideoType
  split_ifs <;> simp

/-- C3: `getCurrentAdRegion` maps a percentage to the PreRoll region
exactly on `[19, 49)`, MidRoll exactly on `[55, 75]`, PostRoll exactly on
`[81, 100]`, and to `null` everywhere else; the spec's sample points
evaluate accordingly. -/
theorem claim_C3_adRegion_bounds :
    (∀ p : ℚ,
      (getCurrentAdRegion p = some "preLoll" ↔ 19 ≤ p ∧ p < 49)
      ∧ (getCurrentAdRegion p = some "midLoll" ↔ 55 ≤ p ∧ p ≤ 75)
      ∧ (getCurrentAdRegion p = some "postLoll" ↔ 81 ≤ p ∧ p ≤ 100)
      ∧ (getCurrentAdRegion p = none ↔
          ¬((19 ≤ p ∧ p < 49) ∨ (55 ≤ p ∧ p ≤ 75) ∨ (81 ≤ p ∧ p ≤ 100))))
    ∧ getCurrentAdRegion (189/10) = none
    ∧ getCurrentAdRegion 19 = some "preLoll"
    ∧ getCurrentAdRegion (489/10) = some "preLoll"
    ∧ getCurrentAdRegion 49 = none
    ∧ getCurrentAdRegion 55 = some "midLoll"
    ∧ getCurrentAdRegion 100 = some "postLoll" := by
  constructor
  · intro p
    unfold getCurrentAdRegion
    split_ifs with h1 h2 h3
    · exact ⟨iff_of_true rfl h1,
        iff_of_false (by simp) (by rintro ⟨a, _⟩; linarith [h1.2]),
        iff_of_false (by simp) (by rintro ⟨a, _⟩; linarith [h1.2]),
        iff_of_false (by simp) (fun hn => hn (Or.inl h1))⟩
    · exact ⟨iff_of_false (by simp) h1,
        iff_of_true rfl h2,
        iff_of_false (by simp) (by rintro ⟨a, _⟩; linarith [h2.2]),
        iff_of_false (by simp) (fun hn => hn (Or.inr (Or.inl h2)))⟩
    · exact ⟨iff_of_false (by simp) h1,
        iff_of_false (by simp) h2,
        iff_of_true rfl h3,
        iff_of_false (by simp) (fun hn => hn (Or.inr (Or.inr h3)))⟩
    · refine ⟨iff_of_false (by simp) h1,
        iff_of_false (by simp) h2,
        iff_of_false (by simp) h3,
        iff_of_true rfl ?_⟩
      rintro (h | h | h)
      · exact h1 h
      · exact h2 h
      · exact h3 h
  · refine ⟨?_, ?_, ?_, ?_, ?_, ?_⟩ <;> norm_num [getCurrentAdRegion]

/-- The localStorage content under the `continuewatching` key:
`absent` models a missing key, `corrupt` models unparsable JSON or a
parsed non-array value, `arr` a parsed array of records. -/
inductive Storage
  | absent
  | corrupt
  | arr (list : List Episode)
deriving DecidableEq, Repr

/-- Embedding of `getContinueWatchingList` (part_002 lines 1472-1480):
return the parsed array; a missing key, a parse failure or a non-array
value all yield the empty list. -/
def getContinueWatchingList : Storage → List Episode
  | .arr list => list
  | _ => []

/-- Embedding of JavaScript `Array.prototype.findIndex` (`-1` becomes
`none`). -/
def jsFindIndex {α : Type} (p : α → Bool) : List α → Option Nat
  | [] => none
  | a :: rest => if p a then some 0 else (jsFindIndex p rest).map (· + 1)

/-- The `const dataToStore = { ...episodeData }; delete dataToStore.video`
step of `saveEpisodeProgress`: a copy with the renditions removed. -/
def stripVideo (e : Episode) : Episode := { e with video := none }

/-- Embedding of `saveEpisodeProgress` (part_002 lines 1481-1502): bail on
a record without a truthy `movieId`; otherwise strip `video` from a copy,
replace the entry with the same `movieId` in place or prepend a new one,
truncate to the 15 most recent entries, and persist. -/
def saveEpisodeProgress (episodeData : Episode) (s : Storage) : Storage :=
  if episodeData.movieId == "" then s
  else
    let list := getContinueWatchingList s
    let dataToStore := stripVideo episodeData
    let list :=
      match jsFindIndex (fun item => item.movieId == episodeData.movieId) list with
      | some existingIndex => list.set existingIndex dataToStore
      | none => dataToStore :: list
    let list := if list.length > 15 then list.take 15 else list
    Storage.arr list

/-- Embedding of `getSavedEpisode` (part_002 lines 1514-1517): first entry
with the given `movieId`, else `null`. -/
def getSavedEpisode (movieId : String) (s : Storage) : Option Episode :=
  (getContinueWatchingList s).find? (fun item => item.movieId == movieId)

/-- `jsFindIndex` misses when no element satisfies the predicate. -/
lemma jsFindIndex_eq_none {α : Type} (p : α → Bool) (l : List α)
    (h : ∀ a ∈ l, p a = false) : jsFindIndex p l = none := by
  induction l with
  | nil => rfl
  | cons a rest ih =>
    simp [jsFindIndex, h a (List.mem_cons_self a rest),
      ih (fun b hb => h b (List.mem_cons_of_mem a hb))]

/-- A hit of `jsFindIndex` is a position inside the list. -/
lemma jsFindIndex_lt_length {α : Type} (p : α → Bool) (l : List α) (i : Nat)
    (h : jsFindIndex p l = some i) : i < l.length := by
  induction l generalizing i with
  | nil => simp [jsFindIndex] at h
  | cons a rest ih =>
    rw [jsFindIndex] at h
    by_cases ha : p a = true
    · simp [ha] at h
      simp only [List.length_cons]
      omega
    · simp [ha] at h
      obtain ⟨j, hj, rfl⟩ := h
      have := ih j hj
      simp only [List.length_cons]
      omega

/-- Replacing the first hit of `jsFindIndex` makes it the first hit of
`find?`. -/
lemma find?_set_jsFindIndex {α : Type} (p : α → Bool) (l : List α) (i : Nat) (a : α)
    (hi : jsFindIndex p l = some i) (ha : p a = true) :
    (l.set i a).find? p = some a := by
  induction l generalizing i with
  | nil => simp [jsFindIndex] at hi
  | cons b rest ih =>
    rw [jsFindIndex] at hi
    by_cases hb : p b = true
    · simp [hb] at hi
      subst hi
      simp [List.find?_cons, ha]
    · simp [hb] at hi
      obtain ⟨j, hj, rfl⟩ := hi
      simp [List.find?_cons, hb, ih j hj]

/-- The `if (list.length > 15) list = list.slice(0, 15)` cap leaves at
most 15 entries. -/
lemma cap_length_le {α : Type} (l : List α) :
    (if l.length > 15 then l.take 15 else l).length ≤ 15 := by
  split
  · simp [List.length_take]
  · omega

/-- Reading back a just-persisted array yields that array. -/
lemma getContinueWatchingList_arr (l : List Episode) :
    getContinueWatchingList (Storage.arr l) = l := rfl

/-- C4: `saveEpisodeProgress` followed by `getContinueWatchingList` yields
at most 15 entries; a record whose id is not yet present is prepended at
the front (then capped at 15), and a 16th distinct record pushed into a
full 15-entry store keeps the 15 most recent entries, dropping the oldest
(last) one. -/
theorem claim_C4_upsert_cap_order (s : Storage) (e : Episode) (h : e.movieId ≠ "") :
    (getContinueWatchingList (saveEpisodeProgress e s)).length ≤ 15
    ∧ ((∀ item ∈ getContinueWatchingList s, item.movieId ≠ e.movieId) →
        getContinueWatchingList (saveEpisodeProgress e s) =
          (stripVideo e :: getContinueWatchingList s).take 15)
    ∧ ((∀ item ∈ getContinueWatchingList s, item.movieId ≠ e.movieId) →
        (getContinueWatchingList s).length = 15 →
        getContinueWatchingList (saveEpisodeProgress e s) =
          stripVideo e :: (getContinueWatchingList s).dropLast) := by
  have hbeq : (e.movieId == "") = false := by simp [h]
  have hlen : (getContinueWatchingList (saveEpisodeProgress e s)).length ≤ 15 := by
    simp only [saveEpisodeProgress, hbeq, Bool.false_eq_true, if_false]
    cases hf : jsFindIndex (fun item => item.movieId == e.movieId) (getContinueWatchingList s) with
    | some i => rw [getContinueWatchingList_arr]; exact cap_length_le _
    | none => rw [getContinueWatchingList_arr]; exact cap_length_le _
  have hfresh : (∀ item ∈ getContinueWatchingList s, item.movieId ≠ e.movieId) →
      getContinueWatchingList (saveEpisodeProgress e s) =
        (stripVideo e :: getContinueWatchingList s).take 15 := by
    intro hnone
    have hf : jsFindIndex (fun item => item.movieId == e.movieId)
        (getContinueWatchingList s) = none :=
      jsFindIndex_eq_none _ _ (fun a ha => by simp [hnone a ha])
    simp only [saveEpisodeProgress, hbeq, Bool.false_eq_true, if_false, hf,
      getContinueWatchingList_arr]
    by_cases hl : (stripVideo e :: getContinueWatchingList s).length > 15
    · rw [if_pos hl]
    · rw [if_neg hl, List.take_of_length_le (by omega)]
  refine ⟨hlen, hfresh, ?_⟩
  intro hnone h15
  rw [hfresh hnone, List.dropLast_eq_take, h15]
  show (stripVideo e :: getContinueWatchingList s).take (14 + 1) = _
  rw [List.take_succ_cons]

/-- A persisted record used in the concrete stores below. -/
def storedA : Episode :=
  { movieId := "a", episodeId := "ea", title := "A", epType := "M", partName := none,
    locked := false, video := none, continueWatching := none, time := none }

/-- An older persisted copy of the `m1` record (no renditions). -/
def storedM1Old : Episode :=
  { storedA with movieId := "m1", episodeId := "e0", title := "Old m1" }

/-- A store that does not contain `m1`. -/
def demoStoreNoM1 : Storage := .arr [storedA]

/-- A store holding `m1` at index 1 (not at the front). -/
def demoStore : Storage := .arr [storedA, storedM1Old]

/-- A full store of 15 distinct records, none of them `m1`. -/
def fifteenStore : Storage :=
  .arr ((List.range 15).map (fun n => { storedA with movieId := String.mk [Char.ofNat (65 + n)] }))

/-- Witness for C4: prepending `m1` to a 1-entry store, and pushing it
into a full 15-entry store, which drops the oldest entry. -/
theorem claim_C4_witness :
    (getContinueWatchingList (saveEpisodeProgress sampleEpisode demoStoreNoM1)).length ≤ 15
    ∧ getContinueWatchingList (saveEpisodeProgress sampleEpisode demoStoreNoM1) =
        (stripVideo sampleEpisode :: getContinueWatchingList demoStoreNoM1).take 15
    ∧ getContinueWatchingList (saveEpisodeProgress sampleEpisode fifteenStore) =
        stripVideo sampleEpisode :: (getContinueWatchingList fifteenStore).dropLast := by
  have h1 := claim_C4_upsert_cap_order demoStoreNoM1 sampleEpisode (by decide)
  have h2 := claim_C4_upsert_cap_order fifteenStore sampleEpisode (by decide)
  exact ⟨h1.1, h1.2.1 (by decide), h2.2.2 (by decide) (by decide)⟩

/-- C5: the persisted form of an upserted record has its `video`
(renditions) removed, so finding it again by id after `saveEpisodeProgress`
returns the URL-stripped copy, whose `video` is `none`; the length bound
on the starting store is the ProgressStore cap invariant. -/
theorem claim_C5_stored_form_has_no_renditions (s : Storage) (e : Episode)
    (h1 : e.movieId ≠ "") (h2 : (getContinueWatchingList s).length ≤ 15) :
    getSavedEpisode e.movieId (saveEpisodeProgress e s) = some (stripVideo e)
    ∧ (stripVideo e).video = none := by
  refine ⟨?_, rfl⟩
  have hbeq : (e.movieId == "") = false := by simp [h1]
  have hstrip : ((stripVideo e).movieId == e.movieId) = true := by
    simp [stripVideo]
  unfold getSavedEpisode
  cases hf : jsFindIndex (fun item => item.movieId == e.movieId)
      (getContinueWatchingList s) with
  | some i =>
    have hilt := jsFindIndex_lt_length _ _ _ hf
    simp only [saveEpisodeProgress, hbeq, Bool.false_eq_true, if_false, hf,
      getContinueWatchingList_arr]
    rw [if_neg (by rw [List.length_set]; omega)]
    exact find?_set_jsFindIndex _ _ _ _ hf hstrip
  | none =>
    simp only [saveEpisodeProgress, hbeq, Bool.false_eq_true, if_false, hf,
      getContinueWatchingList_arr]
    by_cases hl : (stripVideo e :: getContinueWatchingList s).length > 15
    · rw [if_pos hl]
      show List.find? _ (List.take (14 + 1) _) = _
      rw [List.take_succ_cons]
      simp [List.find?_cons, hstrip]
    · rw [if_neg hl]
      simp [List.find?_cons, hstrip]

/-- Witness for C5: upserting the sample episode into a 2-entry store and
reading it back yields the URL-stripped copy. -/
theorem claim_C5_witness :
    getSavedEpisode sampleEpisode.movieId (saveEpisodeProgress sampleEpisode demoStore) =
      some (stripVideo sampleEpisode)
    ∧ (stripVideo sampleEpisode).video = none :=
  claim_C5_stored_form_has_no_renditions demoStore sampleEpisode (by decide) (by decide)

/-- C10: upserting a record whose id is already stored replaces that entry
in place at its current index: same list with position `i` overwritten,
unchanged length, the stripped copy at index `i`, and every other index
untouched. The length bound on the starting store is the ProgressStore cap
invariant. -/
theorem claim_C10_existing_id_replaced_in_place (s : Storage) (e : Episode) (i : Nat)
    (h1 : e.movieId ≠ "") (h2 : (getContinueWatchingList s).length ≤ 15)
    (h3 : jsFindIndex (fun item => item.movieId == e.movieId)
      (getContinueWatchingList s) = some i) :
    getContinueWatchingList (saveEpisodeProgress e s) =
      (getContinueWatchingList s).set i (stripVideo e)
    ∧ (getContinueWatchingList (saveEpisodeProgress e s)).length =
        (getContinueWatchingList s).length
    ∧ (getContinueWatchingList (saveEpisodeProgress e s))[i]? = some (stripVideo e)
    ∧ ∀ j, j ≠ i →
        (getContinueWatchingList (saveEpisodeProgress e s))[j]? =
          (getContinueWatchingList s)[j]? := by
  have hbeq : (e.movieId == "") = false := by simp [h1]
  have hilt := jsFindIndex_lt_length _ _ _ h3
  have hmain : getContinueWatchingList (saveEpisodeProgress e s) =
      (getContinueWatchingList s).set i (stripVideo e) := by
    simp only [saveEpisodeProgress, hbeq, Bool.false_eq_true, if_false, h3,
      getContinueWatchingList_arr]
    rw [if_neg]
    rw [List.length_set]
    omega
  refine ⟨hmain, ?_, ?_, ?_⟩
  · rw [hmain, List.length_set]
  · rw [hmain]
    exact List.getElem?_set_self hilt
  · intro j hj
    rw [hmain]
    exact List.getElem?_set_ne (Ne.symm hj)

/-- Witness for C10: `m1` sits at index 1 of the 2-entry store; after the
upsert it is still at index 1 (not moved to the front) and index 0 is
untouched. -/
theorem claim_C10_witness :
    getContinueWatchingList (saveEpisodeProgress sampleEpisode demoStore) =
      (getContinueWatchingList demoStore).set 1 (stripVideo sampleEpisode)
    ∧ (getContinueWatchingList (saveEpisodeProgress sampleEpisode demoStore)).length =
        (getContinueWatchingList demoStore).length
    ∧ (getContinueWatchingList (saveEpisodeProgress sampleEpisode demoStore))[1]? =
        some (stripVideo sampleEpisode)
    ∧ (getContinueWatchingList (saveEpisodeProgress sampleEpisode demoStore))[0]? =
        (getContinueWatchingList demoStore)[0]? := by
  have h := claim_C10_existing_id_replaced_in_place demoStore sampleEpisode 1
    (by decide) (by decide) (by decide)
  exact ⟨h.1, h.2.1, h.2.2.1, h.2.2.2 0 (by decide)⟩

/-- Embedding of the per-item filter predicate of `cleanupCompletedMovies`
(part_002 lines 55-100, identical in part_000 lines 42-87): keep items
whose `continueWatching.inPercentage` is missing or non-numeric; otherwise
compute the over-90-percent flag and the watched-past-`endTime` flag
(`endTime` must be truthy: present and nonzero after `parseInt`), and drop
movies (`type === 'M'`) and series episodes (`type === 'S'`, via the
final-part check and then the general check) meeting either flag. -/
def keepItem (item : Episode) : Bool :=
  match item.continueWatching with
  | none => true
  | some cw =>
    match cw.inPercentage with
    | none => true
    | some percentage =>
      let watchedMinutes : ℚ := cw.inMinutes.getD 0
      let endTime : Option Int := item.time.bind TimeInfo.endTime
      let isOverNinetyPercent : Bool := decide (percentage > 90)
      let isWatchedPastEndTime : Bool :=
        match endTime with
        | some t => decide (t ≠ 0) && decide ((t : ℚ) < watchedMinutes)
        | none => false
      let isFinalPart : Bool :=
        match item.partName with
        | some p => !(p == "") && jsIncludes (jsToLower p) "final"
        | none => false
      if item.epType == "M" && (isOverNinetyPercent || isWatchedPastEndTime) then false
      else if item.epType == "S" && isFinalPart &&
          (isOverNinetyPercent || isWatchedPastEndTime) then false
      else if item.epType == "S" && (isOverNinetyPercent || isWatchedPastEndTime) then false
      else true

/-- Embedding of `cleanupCompletedMovies` (part_002 lines 36-113): a
missing key and unparsable or non-array content are left untouched (the
function returns early or its catch block swallows the error, logging
only); a parsed array is filtered by `keepItem` and persisted. -/
def cleanupCompletedMovies : Storage → Storage
  | .absent => .absent
  | .corrupt => .corrupt
  | .arr list => .arr (list.filter keepItem)

/-- Completion as worded by the spec for C6 ("watchedPercent exceeds 90 or
watchedSeconds exceeds a defined endOffset", with a defined end offset
meaning present and nonzero, JS truthiness, and missing or non-numeric
progress data never counting as completed). Stated independently of the
`type`-branching of the code, to be compared with `keepItem`. -/
def specCompletedRecord (item : Episode) : Bool :=
  match item.continueWatching with
  | none => false
  | some cw =>
    match cw.inPercentage with
    | none => false
    | some percentage =>
      decide (percentage > 90) ||
        (match item.time.bind TimeInfo.endTime with
        | some t => decide (t ≠ 0) && decide ((t : ℚ) < cw.inMinutes.getD 0)
        | none => false)

/-- C6: `cleanupCompletedMovies` filters a stored list pointwise with
`keepItem`, never touches absent or malformed storage, and for every
record of the data model (kind `'M'` or `'S'`) `keepItem` keeps exactly
the records that are not completed in the claim's sense; records with
missing or non-numeric progress data are always retained. -/
theorem claim_C6_cleanup_removes_exactly_completed :
    (∀ l, cleanupCompletedMovies (Storage.arr l) = Storage.arr (l.filter keepItem))
    ∧ cleanupCompletedMovies Storage.absent = Storage.absent
    ∧ cleanupCompletedMovies Storage.corrupt = Storage.corrupt
    ∧ (∀ item : Episode, item.epType = "M" ∨ item.epType = "S" →
        keepItem item = !(specCompletedRecord item))
    ∧ (∀ item : Episode, item.continueWatching = none → keepItem item = true)
    ∧ (∀ item : Episode, ∀ cw, item.continueWatching = some cw →
        cw.inPercentage = none → keepItem item = true) := by
  refine ⟨fun l => rfl, rfl, rfl, ?_, ?_, ?_⟩
  · intro item htype
    obtain ⟨mid, eid, ti, ty, pn, lk, vid, cwo, tm⟩ := item
    simp only [] at htype
    cases cwo with
    | none => rfl
    | some cw =>
      obtain ⟨mins, perc⟩ := cw
      cases perc with
      | none => rfl
      | some percentage =>
        simp only [keepItem, specCompletedRecord]
        generalize (decide (percentage > 90) ||
          (match tm.bind TimeInfo.endTime with
          | some t => decide (t ≠ 0) && decide ((t : ℚ) < Option.getD mins 0)
          | none => false)) = B
        generalize (match pn with
          | some p => !(p == "") && jsIncludes (jsToLower p) "final"
          | none => false) = F
        rcases htype with h | h <;> subst h <;> cases B <;> cases F <;> simp
  · intro item h
    simp [keepItem, h]
  · intro item cw h1 h2
    simp [keepItem, h1, h2]

/-- A movie record watched to 95 percent, past its end offset of 80. -/
def completedMovieItem : Episode :=
  { storedA with
    epType := "M",
    continueWatching := some ⟨some 100, some 95⟩,
    time := some ⟨some 80⟩ }

/-- Witness for C6: the 95-percent movie is classified as completed and
dropped, and `storedA` (no progress data) is retained. -/
theorem claim_C6_witness :
    keepItem completedMovieItem = !(specCompletedRecord completedMovieItem)
    ∧ specCompletedRecord completedMovieItem = true
    ∧ keepItem storedA = true := by
  refine ⟨claim_C6_cleanup_removes_exactly_completed.2.2.2.1 completedMovieItem (Or.inl rfl),
    by decide,
    claim_C6_cleanup_removes_exactly_completed.2.2.2.2.1 storedA rfl⟩

/-- The zero progress object `{ inMinutes: 0, inPercentage: 0 }`. -/
def zeroContinueWatching : ContinueWatching := ⟨some 0, some 0⟩

/-- Embedding of `mergeSavedWithFreshEpisode` (part_002 lines 121-136):
when either argument is absent return `freshEpisode` as is; otherwise
return the fresh record with its `continueWatching` replaced by the saved
record's (or the zero progress object when the saved record has none). -/
def mergeSavedWithFreshEpisode : Option Episode → Option Episode → Option Episode
  | some savedEpisode, some freshEpisode =>
    some { freshEpisode with
      continueWatching := some (savedEpisode.continueWatching.getD zeroContinueWatching) }
  | _, freshEpisode => freshEpisode

/-- A fresh record that carries its own non-zero progress field. -/
def freshWithProgress : Episode :=
  { sampleEpisode with continueWatching := some ⟨some 5, some 10⟩ }

/-- Counterexample to C7 as stated: with the saved record absent,
`mergeSavedWithFreshEpisode` returns the fresh record unchanged — keeping
its own non-zero progress — not the fresh record with zeroed progress. -/
theorem claim_C7_counterexample :
    mergeSavedWithFreshEpisode none (some freshWithProgress) = some freshWithProgress
    ∧ mergeSavedWithFreshEpisode none (some freshWithProgress) ≠
        some { freshWithProgress with continueWatching := some zeroContinueWatching } := by
  refine ⟨rfl, ?_⟩
  decide

/-- C7 (amended): with both records present, the result is the fresh
record with only its progress replaced — by the saved record's progress,
or by the zeroed progress when the saved record has none — so every
non-progress field equals the fresh record's; when the saved record is
absent the fresh argument is returned unchanged. -/
theorem claim_C7_merge_overwrites_progress (savedEpisode freshEpisode : Episode) :
    mergeSavedWithFreshEpisode (some savedEpisode) (some freshEpisode) =
      some { freshEpisode with
        continueWatching := some (savedEpisode.continueWatching.getD zeroContinueWatching) }
    ∧ (∀ f : Option Episode, mergeSavedWithFreshEpisode none f = f)
    ∧ mergeSavedWithFreshEpisode (some savedEpisode) none = none := by
  refine ⟨rfl, ?_, rfl⟩
  intro f
  cases f <;> rfl

/-- The ad-tracking globals read and written by the ad-reset prefix of
`switchToEpisode` (part_002 lines 2196-2227): the three region
already-fired flags, the ad-playing flag, the region-tracking variables,
and the interval/animation handles hung off `window`. -/
structure AdState where
  preAdShown : Bool
  midAdShown : Bool
  postAdShown : Bool
  isAdPlaying : Bool
  currentAdRegion : Option String
  pendingAdType : Option String
  adCountdownInterval : Option Nat
  nextEpisodeCountdownTimer : Option Nat
  nextEpisodeBorderAnimation : Option Nat
deriving DecidableEq, Repr

/-- The successive statement blocks of the ad-reset prefix of
`switchToEpisode`, in their source order. -/
inductive SwitchStep
  | resetAdFlags
  | clearAdRegionTracking
  | clearAdCountdown
  | clearNextEpisodeTimers
deriving DecidableEq, Repr

/-- Effect of one statement block of the `switchToEpisode` prefix:
`resetAdFlags` executes `preAdShown = midAdShown = postAdShown =
isAdPlaying = false`; `clearAdRegionTracking` nulls `currentAdRegion` and
`pendingAdType`; `clearAdCountdown` runs
`clearInterval(window.adCountdownInterval)` and nulls the handle;
`clearNextEpisodeTimers` clears the next-episode countdown interval and
cancels the border animation frame. -/
def applySwitchStep (st : AdState) : SwitchStep → AdState
  | .resetAdFlags =>
    { st with
      preAdShown := false,
      midAdShown := false,
      postAdShown := false,
      isAdPlaying := false }
  | .clearAdRegionTracking => { st with currentAdRegion := none, pendingAdType := none }
  | .clearAdCountdown => { st with adCountdownInterval := none }
  | .clearNextEpisodeTimers =>
    { st with
      nextEpisodeCountdownTimer := none,
      nextEpisodeBorderAnimation := none }

/-- The source order of the blocks in `switchToEpisode` (lines 2200-2226):
flags are reset first, the ad countdown interval is cleared only
afterwards. -/
def switchToEpisodeAdSteps : List SwitchStep :=
  [.resetAdFlags, .clearAdRegionTracking, .clearAdCountdown, .clearNextEpisodeTimers]

/-- The whole ad-reset prefix of `switchToEpisode`, run left to right. -/
def switchToEpisodeAdReset (st : AdState) : AdState :=
  switchToEpisodeAdSteps.foldl applySwitchStep st

/-- A session state with a MidRoll countdown pending (timer handle 7) and
the PreRoll region already fired. -/
def pendingMidRollState : AdState :=
  { preAdShown := true, midAdShown := false, postAdShown := false, isAdPlaying := false,
    currentAdRegion := some "midLoll", pendingAdType := some "midLoll",
    adCountdownInterval := some 7, nextEpisodeCountdownTimer := none,
    nextEpisodeBorderAnimation := none }

/-- Counterexample to C9 as stated: after the first two blocks of
`switchToEpisode` the region flags are already reset to NotFired while the
pending MidRoll countdown's timer handle is still live — the cancellation
happens after the reset, not before it. -/
theorem claim_C9_counterexample :
    ((switchToEpisodeAdSteps.take 2).foldl applySwitchStep pendingMidRollState).preAdShown =
      false
    ∧ ((switchToEpisodeAdSteps.take 2).foldl applySwitchStep pendingMidRollState).pendingAdType =
        none
    ∧ ((switchToEpisodeAdSteps.take 2).foldl applySwitchStep
          pendingMidRollState).adCountdownInterval = some 7
    ∧ List.findIdx (fun s => s == SwitchStep.resetAdFlags) switchToEpisodeAdSteps <
        List.findIdx (fun s => s == SwitchStep.clearAdCountdown) switchToEpisodeAdSteps := by
  decide

/-- C9 (amended): an episode switch resets the region flags first and
cancels the pending countdown's timer afterwards, both synchronously
within the same `switchToEpisode` call; once the prefix completes, all
three region flags are NotFired, no countdown is pending (tracking nulled
and timer handle cleared) and no ad is marked as playing, for every
starting session state. -/
theorem claim_C9_switch_resets_then_cancels (st : AdState) :
    (switchToEpisodeAdReset st).preAdShown = false
    ∧ (switchToEpisodeAdReset st).midAdShown = false
    ∧ (switchToEpisodeAdReset st).postAdShown = false
    ∧ (switchToEpisodeAdReset st).isAdPlaying = false
    ∧ (switchToEpisodeAdReset st).currentAdRegion = none
    ∧ (switchToEpisodeAdReset st).pendingAdType = none
    ∧ (switchToEpisodeAdReset st).adCountdownInterval = none
    ∧ (switchToEpisodeAdReset st).nextEpisodeCountdownTimer = none
    ∧ (switchToEpisodeAdReset st).nextEpisodeBorderAnimation = none
    ∧ List.findIdx (fun s => s == SwitchStep.resetAdFlags) switchToEpisodeAdSteps <
        List.findIdx (fun s => s == SwitchStep.clearAdCountdown) switchToEpisodeAdSteps := by
  refine ⟨rfl, rfl, rfl, rfl, rfl, rfl, rfl, rfl, rfl, by decide⟩

end ArtPlayerJs
